import Mathlib

/-!
Shallow embedding of the core of `scripts/model_editor.py` (murasame-chan
desktop pet model editor): the project data model (manifest, layer records,
per-layer metadata records), the compositing preview, the binding graph
operations, the migration and cleanup passes, and the dirty/autosave
controller.  Python dicts are embedded as insertion-ordered association
lists, JSON optional keys as `Option` fields, float parameters as `Rat`,
and file-system facts (file existence, image dimensions, write success)
as explicit parameters.
-/

namespace ModelEditor

/-- Python dict lookup (`d.get(k)`): first entry with the key. -/
def dictLookup {β : Type} (l : List (String × β)) (k : String) : Option β :=
  (l.find? (fun p => p.1 = k)).map (·.2)

/-- Python dict assignment `d[k] = v`: update in place when the key is
present (keeping its position), append otherwise. -/
def dictSet {β : Type} (l : List (String × β)) (k : String) (v : β) :
    List (String × β) :=
  if l.any (fun p => p.1 = k) then
    l.map (fun p => if p.1 = k then (k, v) else p)
  else
    l ++ [(k, v)]

/-- Python `d.setdefault(k, v)`: append `(k, v)` only when the key is absent. -/
def dictSetdefault {β : Type} (l : List (String × β)) (k : String) (v : β) :
    List (String × β) :=
  if l.any (fun p => p.1 = k) then l else l ++ [(k, v)]

/-- The `"top_layer"` object of a metadata JSON file.  Every key may be
absent; readers supply the defaults the Python code passes to `.get`. -/
structure TopLayer where
  x : Option Int := none
  y : Option Int := none
  scale : Option Rat := none
  opacity : Option Rat := none
  original_width : Option Int := none
  original_height : Option Int := none
  scaled_width : Option Int := none
  scaled_height : Option Int := none
deriving DecidableEq, Repr

/-- A parsed metadata JSON document: it may or may not contain a
`"top_layer"` section. -/
structure MetaDoc where
  top_layer : Option TopLayer := none
deriving DecidableEq, Repr

/-- The on-disk content of one metadata file: `none` stands for malformed
JSON (a `json.JSONDecodeError` on parse). -/
def MetaFile : Type := Option MetaDoc

instance : DecidableEq MetaFile := by
  unfold MetaFile
  infer_instance

/-- One value of the manifest's `"layers"` mapping.  All keys are optional
in the JSON; `type_` embeds the `"type"` key (the value `"base_layer"`
marks a base layer). -/
structure LayerRecord where
  type_ : Option String := none
  offset : Option (Int × Int) := none
  description : Option String := none
  metadata : Option String := none
  bindings : Option (List String) := none
deriving DecidableEq, Repr

/-- The project manifest: `{"layers": {...}}`, the dict embedded as an
insertion-ordered association list. -/
structure Manifest where
  layers : List (String × LayerRecord) := []
deriving DecidableEq, Repr

/-- `update_layer_type` (model_editor.py): toggling the base checkbox on the
selected layer's record.  Checked: set `type`, default `offset` to `[0,0]`
via `setdefault`, pop `metadata`.  Unchecked: pop `type` and `offset`. -/
def update_layer_type (isBaseChecked : Bool) (data : LayerRecord) : LayerRecord :=
  if isBaseChecked then
    { data with
        type_ := some "base_layer"
        offset := some (data.offset.getD (0, 0))
        metadata := none }
  else
    { data with type_ := none, offset := none }

/-- `bind_layers` (model_editor.py): when the dialog returns a non-empty
selection, `setdefault("bindings", [])` and append each chosen layer that
is not already in the list. -/
def bind_layers (data : LayerRecord) (layers_to_bind : List String) : LayerRecord :=
  if layers_to_bind.isEmpty then data
  else
    { data with
        bindings := some (layers_to_bind.foldl
          (fun acc l => if l ∈ acc then acc else acc ++ [l])
          (data.bindings.getD [])) }

/-- `unbind_layers` (model_editor.py): if the record has a `bindings` key,
`list.remove` each selected name that is present, then delete the key when
the list has become empty. -/
def unbind_layers (data : LayerRecord) (selected : List String) : LayerRecord :=
  match data.bindings with
  | none => data
  | some bs =>
      let bs' := selected.foldl (fun acc l => acc.erase l) bs
      if bs'.isEmpty then { data with bindings := none }
      else { data with bindings := some bs' }

/-- `cleanup_manifest` (model_editor.py): collect the layer names whose
image file under `layers/` does not exist, delete those keys from the
manifest, and report the removed names.  `fileExists n` abstracts
`(layers_dir / n).exists()`. -/
def cleanup_manifest (fileExists : String → Bool) (m : Manifest) :
    Manifest × List String :=
  let missing := ((m.layers.map Prod.fst).filter (fun n => !fileExists n))
  (⟨m.layers.filter (fun p => fileExists p.1)⟩, missing)

/-- Python `int()` applied to a (here: exact-rational) product: truncation
toward zero — floor for non-negative values, ceiling for negative ones. -/
def pyInt (q : Rat) : Int := if 0 ≤ q then ⌊q⌋ else ⌈q⌉

/-- CPython `PurePath.stem`: drop the last suffix; a dot is a suffix
separator only at an index `i` with `0 < i < len - 1`. -/
def pyStem (name : String) : String :=
  let cs := name.toList
  match ((List.range cs.length).filter (fun i => cs.getD i ' ' = '.')).getLast? with
  | some i => if 0 < i ∧ i < cs.length - 1 then String.mk (cs.take i) else name
  | none => name

/-- `update_metadata_from_spinboxes` (model_editor.py), restricted to the pure
document transformation: `setdefault("top_layer", {})`, store the four
spinbox values, and when both `original_width` and `original_height` are
present set `scaled_* = int(original_* * scale)`. -/
def update_metadata_from_spinboxes (sx sy : Int) (s op : Rat) (doc : MetaDoc) :
    MetaDoc :=
  let tl := doc.top_layer.getD {}
  let tl := { tl with x := some sx, y := some sy, scale := some s, opacity := some op }
  let tl :=
    match tl.original_width, tl.original_height with
    | some w, some h =>
        { tl with
            scaled_width := some (pyInt ((w : Rat) * s))
            scaled_height := some (pyInt ((h : Rat) * s)) }
    | _, _ => tl
  { doc with top_layer := some tl }

/-- The dict comprehension at the top of `run_migration_script`: map each
referenced (truthy) metadata filename to its owning layer, last write wins. -/
def metadata_to_layer_map (m : Manifest) : List (String × String) :=
  m.layers.foldl
    (fun acc p =>
      match p.2.metadata with
      | some fn => if fn ≠ "" then dictSet acc fn p.1 else acc
      | none => acc)
    []

/-- Outcome of one metadata file in the migration loop. -/
inductive MigOutcome
  | processed
  | skipped
  | errored
deriving DecidableEq, Repr

/-- One iteration of the migration loop in `run_migration_script`
(model_editor.py): parse the file (malformed → error), skip when there is no
`top_layer` section or `original_width` is already present, skip unlinked
metadata, error when the owning layer's image is missing, otherwise backfill
the dimension fields from the image size and the stored scale and write the
file back. -/
def migrate_file (metaMap : List (String × String)) (fileExists : String → Bool)
    (imageDims : String → Int × Int) (fname : String) (content : MetaFile) :
    MetaFile × MigOutcome :=
  match content with
  | none => (none, .errored)
  | some data =>
    match data.top_layer with
    | none => (some data, .skipped)
    | some tl =>
      if tl.original_width.isSome then (some data, .skipped)
      else
        match dictLookup metaMap fname with
        | none => (some data, .skipped)
        | some layer_filename =>
          if !fileExists layer_filename then (some data, .errored)
          else
            let wh := imageDims layer_filename
            let scale := tl.scale.getD 1
            (some { data with top_layer := some { tl with
                original_width := some wh.1
                original_height := some wh.2
                scaled_width := some (pyInt ((wh.1 : Rat) * scale))
                scaled_height := some (pyInt ((wh.2 : Rat) * scale)) } },
             .processed)

/-- The counters reported by the migration summary dialog. -/
structure MigStats where
  processed : Nat := 0
  skipped : Nat := 0
  errored : Nat := 0
deriving DecidableEq, Repr

/-- The migration loop over the files of `metadata/`, in directory order:
each file is rewritten in place and tallied. -/
def run_migration (metaMap : List (String × String)) (fileExists : String → Bool)
    (imageDims : String → Int × Int) :
    List (String × MetaFile) → List (String × MetaFile) × MigStats
  | [] => ([], {})
  | (fname, content) :: rest =>
    let fc := migrate_file metaMap fileExists imageDims fname content
    let rs := run_migration metaMap fileExists imageDims rest
    ((fname, fc.1) :: rs.1,
      match fc.2 with
      | .processed => { rs.2 with processed := rs.2.processed + 1 }
      | .skipped => { rs.2 with skipped := rs.2.skipped + 1 }
      | .errored => { rs.2 with errored := rs.2.errored + 1 })

/-- `run_migration_script` (model_editor.py): build the metadata→layer map
from the open manifest, then run the migration loop over the metadata files. -/
def run_migration_script (m : Manifest) (fileExists : String → Bool)
    (imageDims : String → Int × Int) (files : List (String × MetaFile)) :
    List (String × MetaFile) × MigStats :=
  run_migration (metadata_to_layer_map m) fileExists imageDims files

/-- One resolved draw instruction of the preview scene: image reference,
position, uniform scale, opacity, and z-value. -/
structure DrawOp where
  image : String
  pos : Int × Int
  scale : Rat
  opacity : Rat
  z : Int
deriving DecidableEq, Repr

/-- `load_metadata_json_for_layer` (model_editor.py): resolve the layer's
(truthy) `metadata` filename, read the file, parse it; any failure along the
way yields `none`. -/
def load_metadata_json_for_layer (m : Manifest) (mfiles : List (String × MetaFile))
    (layer_name : String) : Option MetaDoc :=
  match dictLookup m.layers layer_name with
  | none => none
  | some r =>
    match r.metadata with
    | none => none
    | some fn =>
      if fn = "" then none
      else
        match dictLookup mfiles fn with
        | none => none
        | some content => content

/-- The metadata defaulting shared by `update_preview` and
`_render_bound_layers_for`: `(x, y, scale, opacity)` from the layer's parsed
metadata, with defaults `(0, 0, 1, 1)` when the document or its `top_layer`
section is unavailable. -/
def resolve_meta_params (m : Manifest) (mfiles : List (String × MetaFile))
    (name : String) : Int × Int × Rat × Rat :=
  match load_metadata_json_for_layer m mfiles name with
  | some doc =>
    match doc.top_layer with
    | some meta => (meta.x.getD 0, meta.y.getD 0, meta.scale.getD 1, meta.opacity.getD 1)
    | none => (0, 0, 1, 1)
  | none => (0, 0, 1, 1)

/-- The loop body of `_render_bound_layers_for`: walk the binding list in
order, skip names with no backing image file, and emit one draw operation
per remaining name at strictly increasing z starting from `z`. -/
def render_bound_go (m : Manifest) (mfiles : List (String × MetaFile))
    (fileExists : String → Bool) (base_offset : Int × Int) :
    List String → Int → List DrawOp × Int
  | [], z => ([], z)
  | bound_name :: rest, z =>
    if fileExists bound_name then
      let p := resolve_meta_params m mfiles bound_name
      let r := render_bound_go m mfiles fileExists base_offset rest (z + 1)
      (⟨bound_name, (base_offset.1 + p.1, base_offset.2 + p.2.1), p.2.2.1, p.2.2.2, z⟩
        :: r.1, r.2)
    else render_bound_go m mfiles fileExists base_offset rest z

/-- `_render_bound_layers_for` (model_editor.py): render every layer bound to
`source`, returning the emitted operations and the next free z-value. -/
def render_bound_layers_for (m : Manifest) (mfiles : List (String × MetaFile))
    (fileExists : String → Bool) (source : String) (base_offset : Int × Int)
    (start_z : Int) : List DrawOp × Int :=
  render_bound_go m mfiles fileExists base_offset
    (((dictLookup m.layers source).bind LayerRecord.bindings).getD []) start_z

/-- A preview combo selection names a layer iff it is non-empty and not the
`"<None>"` entry. -/
def layerSelected (name : String) : Bool := name ≠ "" && name ≠ "<None>"

/-- `update_preview` (model_editor.py) as the emitted draw-operation list:
base layer at z 0, top layer at z 1 (offset by the base record's `offset`),
then the top layer's bound layers, then the base layer's bound layers at
strictly higher z; every step skips a missing image file. -/
def update_preview (m : Manifest) (mfiles : List (String × MetaFile))
    (fileExists : String → Bool) (base_name top_name : String) : List DrawOp :=
  let base_offset := ((dictLookup m.layers base_name).bind LayerRecord.offset).getD (0, 0)
  let z0 : Int := 0
  let baseOps :=
    if layerSelected base_name && fileExists base_name then
      [(⟨base_name, (0, 0), 1, 1, z0⟩ : DrawOp)]
    else []
  let z1 := z0 + 1
  let topOps :=
    if layerSelected top_name && fileExists top_name then
      let p := resolve_meta_params m mfiles top_name
      [(⟨top_name, (base_offset.1 + p.1, base_offset.2 + p.2.1), p.2.2.1, p.2.2.2, z1⟩
        : DrawOp)]
    else []
  let tb :=
    if layerSelected top_name then
      render_bound_layers_for m mfiles fileExists top_name base_offset (z1 + 1)
    else ([], z1)
  let bb :=
    if layerSelected base_name then
      render_bound_layers_for m mfiles fileExists base_name base_offset (tb.2 + 1)
    else ([], tb.2)
  baseOps ++ topOps ++ tb.1 ++ bb.1

/-- The editor's project state: the open project path, the in-memory
manifest, the dirty flag, and (to make persistence observable) the manifest
last written to disk. -/
structure EditorState where
  project_path : Option String := none
  manifest : Manifest := {}
  is_dirty : Bool := false
  manifest_on_disk : Option Manifest := none
deriving DecidableEq, Repr

/-- `mark_dirty` (model_editor.py). -/
def mark_dirty (st : EditorState) : EditorState := { st with is_dirty := true }

/-- `save_project` (model_editor.py): no-op without an open project;
otherwise `save_manifest` writes the manifest and only afterwards is
`is_dirty` cleared.  `writeOk = false` models an `IOError` raised by the
write: the exception propagates before the flag is cleared, leaving the
state unchanged. -/
def save_project (writeOk : Bool) (st : EditorState) : EditorState :=
  match st.project_path with
  | none => st
  | some _ =>
    if writeOk then
      { st with manifest_on_disk := some st.manifest, is_dirty := false }
    else st

/-- `auto_save_project` (model_editor.py): the 30-second timer callback,
saving only when a project is open and the dirty flag is set. -/
def auto_save_project (writeOk : Bool) (st : EditorState) : EditorState :=
  if st.project_path.isSome && st.is_dirty then save_project writeOk st else st

/-- `load_project` (model_editor.py).  `structure_ok` abstracts the
existence check on `manifest.json` and `layers/` (early return when false);
`parsed` abstracts `json.load` on the manifest (`none` = malformed JSON).
On the parse-failure path the code first sets `project_path` to the new
path and then resets it to `None` inside the handler, leaving the in-memory
manifest and dirty flag untouched. -/
def load_project (st : EditorState) (path : String) (structure_ok : Bool)
    (parsed : Option Manifest) : EditorState :=
  if !structure_ok then st
  else
    match parsed with
    | none => { st with project_path := none }
    | some man =>
      { st with project_path := some path, manifest := man, is_dirty := false }

/-- The record stored by `_add_layer_files` for a newly added base layer. -/
def base_layer_record : LayerRecord :=
  { type_ := some "base_layer", offset := some (0, 0) }

/-- The per-file manifest mutation of `_add_layer_files` (model_editor.py),
on the accepted/copied path: a base add assigns
`{"type": "base_layer", "offset": [0, 0]}` outright; a plain add does
`setdefault(name, {})`. -/
def add_layer_file (m : Manifest) (name : String) ( is_base : Bool) : Manifest :=
  if is_base then ⟨dictSet m.layers name base_layer_record⟩
  else ⟨dictSetdefault m.layers name {}⟩

/-- The default metadata document built by `_create_and_assign_metadata`
(model_editor.py): dimensions probed from the image when the file exists,
`0 × 0` otherwise. -/
def create_default_metadata (fileExists : String → Bool)
    (imageDims : String → Int × Int) (layer_name : String) : MetaDoc :=
  let wh := if fileExists layer_name then imageDims layer_name else ((0 : Int), (0 : Int))
  { top_layer := some
      { x := some 0, y := some 0, scale := some 1, opacity := some 1,
        original_width := some wh.1, original_height := some wh.2,
        scaled_width := some wh.1, scaled_height := some wh.2 } }

/-- `_create_and_assign_metadata` (model_editor.py): write the default
document to `<stem>.json` under `metadata/` (an `IOError`, modelled by
`writeOk = false`, returns `none` with nothing else changed), then store
the filename in the layer's record and mark the project dirty. -/
def create_and_assign_metadata (fileExists : String → Bool)
    (imageDims : String → Int × Int) (writeOk : Bool) (st : EditorState)
    (mfiles : List (String × MetaFile)) (layer_name : String) :
    EditorState × List (String × MetaFile) × Option String :=
  if !writeOk then (st, mfiles, none)
  else
    let metadata_filename := pyStem layer_name ++ ".json"
    let doc := create_default_metadata fileExists imageDims layer_name
    let mfiles' := dictSet mfiles metadata_filename (some doc)
    let st' := mark_dirty { st with
      manifest := ⟨st.manifest.layers.map (fun p =>
        if p.1 = layer_name then (p.1, { p.2 with metadata := some metadata_filename })
        else p)⟩ }
    (st', mfiles', some metadata_filename)

/-- Modelled from the spec: the field-wise merge of a partial layer record
into an existing one — a field supplied by the patch overwrites, a field the
patch leaves out keeps the existing value. -/
def mergeRecord (old patch : LayerRecord) : LayerRecord :=
  { type_ := patch.type_ <|> old.type_
    offset := patch.offset <|> old.offset
    description := patch.description <|> old.description
    metadata := patch.metadata <|> old.metadata
    bindings := patch.bindings <|> old.bindings }

/-- Modelled from the spec: `upsert_layer(manifest, name, patch)` merges a
partial record into the layer keyed by `name`, creating it if absent
(Manifest Store contract, spec §4.1). -/
def upsert_layer (m : Manifest) (name : String) (patch : LayerRecord) : Manifest :=
  match dictLookup m.layers name with
  | none => ⟨m.layers ++ [(name, patch)]⟩
  | some old => ⟨dictSet m.layers name (mergeRecord old patch)⟩

/-- Modelled from the spec: `scaled_width = round(original_width * scale)`
(MetadataRecord invariant, spec §3). -/
def spec_scaled (w : Int) (s : Rat) : Int := round ((w : Rat) * s)

/-- `cleanup_manifest` as the full event handler: on the open project's
state, with the metadata files passed through untouched; when nothing is
missing the early return leaves the state as it was, otherwise the pruned
manifest is stored and the project marked dirty. -/
def cleanup_manifest_event (fileExists : String → Bool) (st : EditorState)
    (mfiles : List (String × MetaFile)) :
    EditorState × List (String × MetaFile) × List String :=
  let c := cleanup_manifest fileExists st.manifest
  if c.2.isEmpty then (st, mfiles, c.2)
  else (mark_dirty { st with manifest := c.1 }, mfiles, c.2)

/-- A concrete six-layer manifest: base `B.png` binding `x.png, y.png`,
overlay `O.png` binding `p.png, q.png`. -/
def previewManifest : Manifest := ⟨[
  ("B.png", { type_ := some "base_layer", offset := some (0, 0),
              bindings := some ["x.png", "y.png"] }),
  ("O.png", { bindings := some ["p.png", "q.png"] }),
  ("p.png", {}), ("q.png", {}), ("x.png", {}), ("y.png", {})]⟩

/-- A concrete open-project state whose manifest has layers `a.png` and
`b.png`. -/
def twoLayerState : EditorState :=
  { project_path := some "proj"
    manifest := ⟨[("a.png", {}), ("b.png", {})]⟩ }

/-- A concrete state with a project already open. -/
def loadedState : EditorState :=
  { project_path := some "old_project", manifest := ⟨[("a.png", {})]⟩ }

/-- A concrete open, dirty state. -/
def dirtyState : EditorState :=
  { project_path := some "proj", manifest := ⟨[("a.png", {})]⟩, is_dirty := true }

/-- A metadata document whose cached original size is `1 × 1`. -/
def unitSquareDoc : MetaDoc :=
  { top_layer := some { original_width := some 1, original_height := some 1 } }

/-- A legacy metadata document: placement and scale only, no dimension
fields. -/
def legacyDoc : MetaDoc :=
  { top_layer := some { x := some 0, y := some 0, scale := some 2 } }

/-- A manifest holding one layer record that carries a description. -/
def describedManifest : Manifest := ⟨[("a.png", { description := some "d" })]⟩

/-- The metadata document `_create_and_assign_metadata` writes when the
layer's image file is absent: all four dimension fields are `0`. -/
def zeroDimsDoc : MetaDoc :=
  { top_layer := some
      { x := some 0, y := some 0, scale := some 1, opacity := some 1,
        original_width := some 0, original_height := some 0,
        scaled_width := some 0, scaled_height := some 0 } }

theorem dictLookup_filter_of_pos {β : Type} (fe : String → Bool)
    (l : List (String × β)) (n : String) (h : fe n = true) :
    dictLookup (l.filter (fun p => fe p.1)) n = dictLookup l n := by
  induction l with
  | nil => rfl
  | cons a t ih =>
    by_cases ha : a.1 = n
    · have hf : fe a.1 = true := by rw [ha]; exact h
      simp [dictLookup, List.filter_cons, hf, List.find?_cons, ha, h]
    · by_cases hf : fe a.1
      · simpa [dictLookup, List.filter_cons, hf, List.find?_cons, ha] using ih
      · simpa [dictLookup, List.filter_cons, hf, List.find?_cons, ha] using ih

theorem dictLookup_filter_of_neg {β : Type} (fe : String → Bool)
    (l : List (String × β)) (n : String) (h : fe n = false) :
    dictLookup (l.filter (fun p => fe p.1)) n = none := by
  induction l with
  | nil => rfl
  | cons a t ih =>
    by_cases hf : fe a.1
    · have ha : a.1 ≠ n := fun e => by rw [e, h] at hf; exact Bool.false_ne_true hf
      simpa [dictLookup, List.filter_cons, hf, List.find?_cons, ha] using ih
    · simpa [dictLookup, List.filter_cons, hf] using ih

theorem mem_keys_of_dictLookup {β : Type} {l : List (String × β)} {n : String}
    {r : β} (h : dictLookup l n = some r) : n ∈ l.map Prod.fst := by
  unfold dictLookup at h
  rcases Option.map_eq_some'.mp h with ⟨p, hp, hr⟩
  have hmem := List.mem_of_find?_eq_some hp
  have hkey : p.1 = n := by simpa using List.find?_some hp
  exact hkey ▸ List.mem_map_of_mem Prod.fst hmem

/-- C4: toggling a record to base via `update_layer_type` gives it the
base marker and an `offset` (the existing one, defaulting to `(0, 0)`) and
removes any `metadata_file` reference; toggling back to overlay removes the
offset and the base marker.  Hence a base-kind record always has `offset`
set and never has `metadata`. -/
theorem update_layer_type_invariant (r : LayerRecord) :
    (update_layer_type true r).type_ = some "base_layer" ∧
    (update_layer_type true r).offset = some (r.offset.getD (0, 0)) ∧
    (update_layer_type true r).metadata = none ∧
    (update_layer_type false (update_layer_type true r)).type_ = none ∧
    (update_layer_type false (update_layer_type true r)).offset = none := by
  simp [update_layer_type]

/-- C7 counterexample: with project `old_project` open, loading a directory
whose `manifest.json` is malformed JSON does not leave the project path as
it was — the handler resets it to `None`, so the previously loaded path is
lost. -/
theorem load_project_path_counterexample :
    (load_project loadedState "new_project" true none).project_path
      ≠ loadedState.project_path := by
  decide

/-- C7 amended: when `manifest.json` is malformed JSON the load is aborted
and the in-memory manifest and the dirty flag are left unchanged, but the
project path is cleared to `None` (no project is open afterwards) rather
than restored to the previously loaded path. -/
theorem load_project_parse_failure (st : EditorState) (path : String) :
    (load_project st path true none).manifest = st.manifest ∧
    (load_project st path true none).project_path = none ∧
    (load_project st path true none).is_dirty = st.is_dirty := by
  simp [load_project]

/-- C2: cleanup reports exactly the layer names whose backing image file is
missing, keeps exactly the records whose file exists (each unchanged, its
bindings included), and leaves the metadata files untouched. -/
theorem cleanup_manifest_exact (fe : String → Bool) (st : EditorState)
    (mfiles : List (String × MetaFile)) (n : String) (r : LayerRecord)
    (h : dictLookup st.manifest.layers n = some r) :
    (cleanup_manifest_event fe st mfiles).2.2
        = (st.manifest.layers.map Prod.fst).filter (fun x => !fe x) ∧
    (cleanup_manifest_event fe st mfiles).2.1 = mfiles ∧
    (cleanup_manifest_event fe st mfiles).1.manifest.layers
        = st.manifest.layers.filter (fun p => fe p.1) ∧
    (fe n = true →
      dictLookup (cleanup_manifest_event fe st mfiles).1.manifest.layers n
        = some r) ∧
    (fe n = false →
      dictLookup (cleanup_manifest_event fe st mfiles).1.manifest.layers n
        = none) := by
  unfold cleanup_manifest_event cleanup_manifest
  by_cases hE : ((st.manifest.layers.map Prod.fst).filter (fun x => !fe x)).isEmpty = true
  · have hnil : ((st.manifest.layers.map Prod.fst).filter (fun x => !fe x)) = [] := by
      simpa using hE
    have hall : ∀ p ∈ st.manifest.layers, fe p.1 = true := by
      intro p hp
      have hm : p.1 ∈ st.manifest.layers.map Prod.fst :=
        List.mem_map_of_mem Prod.fst hp
      have := List.filter_eq_nil_iff.mp hnil p.1 hm
      simpa using this
    have hself : st.manifest.layers.filter (fun p => fe p.1) = st.manifest.layers :=
      List.filter_eq_self.mpr hall
    rw [if_pos hE]
    refine ⟨rfl, rfl, hself.symm, fun _ => h, ?_⟩
    · intro hn
      have hmem : n ∈ st.manifest.layers.map Prod.fst := mem_keys_of_dictLookup h
      rcases List.mem_map.mp hmem with ⟨p, hp, hpn⟩
      have hfe := hall p hp
      rw [hpn, hn] at hfe
      exact absurd hfe (by simp)
  · rw [if_neg hE]
    refine ⟨rfl, rfl, by simp [mark_dirty], ?_, ?_⟩
    · intro hn
      have hlk := dictLookup_filter_of_pos fe st.manifest.layers n hn
      simp only [mark_dirty]
      rw [hlk, h]
    · intro hn
      have hlk := dictLookup_filter_of_neg fe st.manifest.layers n hn
      simpa [mark_dirty] using hlk

/-- C2 witness: manifest `{a.png, b.png}` with only `a.png` on disk —
cleanup reports `["b.png"]`, keeps `a.png`'s record, and drops `b.png`. -/
theorem cleanup_manifest_exact_witness :
    (cleanup_manifest_event (fun x => x == "a.png") twoLayerState []).2.2
      = ["b.png"] ∧
    dictLookup (cleanup_manifest_event (fun x => x == "a.png")
        twoLayerState []).1.manifest.layers "a.png" = some {} ∧
    dictLookup (cleanup_manifest_event (fun x => x == "a.png")
        twoLayerState []).1.manifest.layers "b.png" = none := by
  have h := cleanup_manifest_exact (fun x => x == "a.png") twoLayerState []
    "a.png" {} (by decide)
  have h' := cleanup_manifest_exact (fun x => x == "a.png") twoLayerState []
    "b.png" {} (by decide)
  exact ⟨by rw [h.1]; decide, h.2.2.2.1 (by decide), h'.2.2.2.2 (by decide)⟩

theorem bind_fold_nodup (toBind : List String) (acc : List String) (h : acc.Nodup) :
    (toBind.foldl (fun acc l => if l ∈ acc then acc else acc ++ [l]) acc).Nodup := by
  induction toBind generalizing acc with
  | nil => exact h
  | cons a t ih =>
    simp only [List.foldl_cons]
    by_cases ha : a ∈ acc
    · rw [if_pos ha]; exact ih acc h
    · rw [if_neg ha]
      refine ih _ (List.Nodup.append h (List.nodup_singleton a) ?_)
      intro x hx hx'
      rw [List.mem_singleton] at hx'
      exact ha (hx' ▸ hx)

/-- C8: binding a name to a record that has no other bindings and then
unbinding that same name restores the record exactly — in particular there
is no `bindings` key afterwards; `bind_layers` never inserts a duplicate
name; and `unbind_layers` never leaves an empty `bindings` list stored. -/
theorem bind_unbind_roundtrip (r : LayerRecord) (c : String) (toBind : List String)
    (h : r.bindings = none) :
    unbind_layers (bind_layers r [c]) [c] = r ∧
    ((bind_layers r toBind).bindings.getD []).Nodup ∧
    (∀ (r' : LayerRecord) (sel : List String),
      (unbind_layers r' sel).bindings ≠ some []) := by
  refine ⟨?_, ?_, ?_⟩
  · cases r with
    | mk t o d m b =>
      simp only at h
      subst h
      simp [bind_layers, unbind_layers]
  · by_cases ht : toBind.isEmpty
    · simp [bind_layers, ht, h]
    · simp only [bind_layers, ht, if_neg Bool.false_ne_true, h]
      simpa using bind_fold_nodup toBind [] List.nodup_nil
  · intro r' sel
    cases hb : r'.bindings with
    | none => simp [unbind_layers, hb]
    | some bs =>
      by_cases he : (sel.foldl (fun acc l => acc.erase l) bs).isEmpty
      · simp [unbind_layers, hb, he]
      · simp only [unbind_layers, hb, if_neg he]
        intro hEq
        simp only [Option.some.injEq] at hEq
        rw [hEq] at he
        exact he rfl

/-- C8 witness: binding `c.png` to a record with no bindings, then
unbinding it, restores the record; a bind list that repeats `c.png` still
produces a duplicate-free bindings list. -/
theorem bind_unbind_roundtrip_witness :
    unbind_layers (bind_layers {} ["c.png"]) ["c.png"] = ({} : LayerRecord) ∧
    ((bind_layers {} ["c.png", "d.png", "c.png"]).bindings.getD []).Nodup :=
  ⟨(bind_unbind_roundtrip {} "c.png" ["c.png", "d.png", "c.png"] rfl).1,
   (bind_unbind_roundtrip {} "c.png" ["c.png", "d.png", "c.png"] rfl).2.1⟩

/-- C9: with a project open, the autosave trigger performs the save and
clears the dirty flag exactly when `dirty` is true; when the manifest write
fails the state is unchanged, so `dirty` stays true and the next interval
retries. -/
theorem auto_save_exact (st : EditorState) (writeOk : Bool)
    (hP : st.project_path.isSome = true) :
    (st.is_dirty = true → auto_save_project writeOk st = save_project writeOk st) ∧
    (st.is_dirty = true → writeOk = true →
      (auto_save_project writeOk st).is_dirty = false ∧
      (auto_save_project writeOk st).manifest_on_disk = some st.manifest) ∧
    (st.is_dirty = true → writeOk = false → auto_save_project writeOk st = st) ∧
    (st.is_dirty = false → auto_save_project writeOk st = st) := by
  cases hO : st.project_path with
  | none => rw [hO] at hP; exact absurd hP (by simp)
  | some p =>
    refine ⟨fun hd => ?_, fun hd hw => ?_, fun hd hw => ?_, fun hd => ?_⟩
    · simp [auto_save_project, hO, hd]
    · subst hw
      constructor <;> simp [auto_save_project, save_project, hO, hd]
    · subst hw
      simp [auto_save_project, save_project, hO, hd]
    · simp [auto_save_project, hd]

/-- C9 witness: on a concrete open dirty state, a failed write leaves the
dirty flag true and a successful write clears it and persists the
manifest. -/
theorem auto_save_exact_witness :
    (auto_save_project false dirtyState).is_dirty = true ∧
    (auto_save_project true dirtyState).is_dirty = false ∧
    (auto_save_project true dirtyState).manifest_on_disk
      = some dirtyState.manifest := by
  have hf := auto_save_exact dirtyState false (by decide)
  have ht := auto_save_exact dirtyState true (by decide)
  refine ⟨?_, (ht.2.1 (by decide) rfl).1, (ht.2.1 (by decide) rfl).2⟩
  rw [hf.2.2.1 (by decide) rfl]
  decide

theorem any_of_dictLookup {β : Type} {l : List (String × β)} {k : String} {v : β}
    (h : dictLookup l k = some v) : l.any (fun p => p.1 = k) = true := by
  rcases Option.map_eq_some'.mp h with ⟨p, hp, _⟩
  have hm := List.mem_of_find?_eq_some hp
  have hk : p.1 = k := by simpa using List.find?_some hp
  exact List.any_eq_true.mpr ⟨p, hm, by simp [hk]⟩

theorem dictLookup_eq_none_iff {β : Type} (l : List (String × β)) (k : String) :
    dictLookup l k = none ↔ l.any (fun p => p.1 = k) = false := by
  rw [← Bool.not_eq_true, List.any_eq_true]
  unfold dictLookup
  simp only [Option.map_eq_none', List.find?_eq_none, decide_eq_true_eq, not_exists,
    Prod.forall, Prod.exists, not_and]

theorem dictLookup_dictSet_self {β : Type} (l : List (String × β)) (k : String)
    (v : β) : dictLookup (dictSet l k v) k = some v := by
  unfold dictSet
  by_cases hA : l.any (fun p => p.1 = k) = true
  · rw [if_pos hA]
    unfold dictLookup
    rw [List.find?_map]
    have hpf : ((fun q : String × β => decide (q.1 = k)) ∘
        (fun p => if p.1 = k then (k, v) else p)) = fun p => decide (p.1 = k) := by
      funext p
      by_cases hp : p.1 = k <;> simp [hp]
    rw [hpf]
    rcases hf : l.find? (fun p => decide (p.1 = k)) with _ | p
    · exfalso
      rcases List.any_eq_true.mp hA with ⟨x, hx, hxk⟩
      exact List.find?_eq_none.mp hf x hx hxk
    · have hk : p.1 = k := by simpa using List.find?_some hf
      rw [hf]
      simp [hk]
  · rw [if_neg hA]
    unfold dictLookup
    rw [List.find?_append]
    have hnone : l.find? (fun p => decide (p.1 = k)) = none := by
      rw [List.find?_eq_none]
      intro x hx hxk
      exact hA (List.any_eq_true.mpr ⟨x, hx, hxk⟩)
    rw [hnone]
    simp

theorem dictLookup_dictSet_ne {β : Type} (l : List (String × β)) (k n : String)
    (v : β) (hn : n ≠ k) : dictLookup (dictSet l k v) n = dictLookup l n := by
  unfold dictSet
  by_cases hA : l.any (fun p => p.1 = k) = true
  · rw [if_pos hA]
    unfold dictLookup
    rw [List.find?_map]
    have hpf : ((fun q : String × β => decide (q.1 = n)) ∘
        (fun p => if p.1 = k then (k, v) else p)) = fun p => decide (p.1 = n) := by
      funext p
      by_cases hp : p.1 = k
      · simp [hp, Ne.symm hn]
      · simp [hp]
    rw [hpf]
    rcases hf : l.find? (fun p => decide (p.1 = n)) with _ | p
    · rw [hf]; rfl
    · have hk : p.1 = n := by simpa using List.find?_some hf
      have hpk : ¬ p.1 = k := by rw [hk]; exact hn
      rw [hf]
      simp [hpk]
  · rw [if_neg hA]
    unfold dictLookup
    rw [List.find?_append]
    rcases hf : l.find? (fun p => decide (p.1 = n)) with _ | p
    · rw [hf]
      simp [Ne.symm hn]
    · rw [hf]
      simp

theorem dictLookup_dictSetdefault_ne {β : Type} (l : List (String × β))
    (k n : String) (v : β) (hn : n ≠ k) :
    dictLookup (dictSetdefault l k v) n = dictLookup l n := by
  unfold dictSetdefault
  by_cases hA : l.any (fun p => p.1 = k) = true
  · rw [if_pos hA]
  · rw [if_neg hA]
    unfold dictLookup
    rw [List.find?_append]
    rcases hf : l.find? (fun p => decide (p.1 = n)) with _ | p
    · rw [hf]
      simp [Ne.symm hn]
    · rw [hf]
      simp

theorem dictLookup_map_modify_self {β : Type} (l : List (String × β))
    (k : String) (g : β → β) :
    dictLookup (l.map (fun p => if p.1 = k then (p.1, g p.2) else p)) k
      = (dictLookup l k).map g := by
  unfold dictLookup
  rw [List.find?_map]
  have hpf : ((fun q : String × β => decide (q.1 = k)) ∘
      (fun p => if p.1 = k then (p.1, g p.2) else p)) = fun p => decide (p.1 = k) := by
    funext p
    by_cases hp : p.1 = k <;> simp [hp]
  rw [hpf]
  rcases hf : l.find? (fun p => decide (p.1 = k)) with _ | p
  · rw [hf]; rfl
  · have hk : p.1 = k := by simpa using List.find?_some hf
    rw [hf]
    simp [hk]

theorem dictSet_of_lookup_self {β : Type} (l : List (String × β)) (k : String)
    (v : β) (hnd : (l.map Prod.fst).Nodup) (h : dictLookup l k = some v) :
    dictSet l k v = l := by
  unfold dictSet
  rw [if_pos (any_of_dictLookup h)]
  rcases Option.map_eq_some'.mp h with ⟨q, hq, hqv⟩
  have hqk : q.1 = k := by simpa using List.find?_some hq
  have hqm := List.mem_of_find?_eq_some hq
  have hid : ∀ p ∈ l, (if p.1 = k then (k, v) else p) = p := by
    intro p hp
    by_cases hpk : p.1 = k
    · rw [if_pos hpk]
      have hpq : p = q :=
        List.inj_on_of_nodup_map hnd hp hqm (by rw [hpk, hqk])
      rw [hpq, ← hqk, ← hqv]
    · rw [if_neg hpk]
  rw [show (fun p : String × β => if p.1 = k then (k, v) else p)
      = fun p => if p.1 = k then (k, v) else p from rfl]
  calc l.map (fun p => if p.1 = k then (k, v) else p) = l.map id :=
        List.map_congr_left hid
    _ = l := List.map_id l

/-- C10: creating default metadata for a layer whose backing image file does
not exist still succeeds: the written record has `x = y = 0`,
`scale = opacity = 1` and all four dimension fields equal to `0`, the
metadata filename is assigned to the layer's record, and the project is
marked dirty. -/
theorem create_metadata_missing_image (fe : String → Bool)
    (dims : String → Int × Int) (st : EditorState)
    (mfiles : List (String × MetaFile)) (layer_name : String) (r : LayerRecord)
    (hMissing : fe layer_name = false)
    (hLayer : dictLookup st.manifest.layers layer_name = some r) :
    (create_and_assign_metadata fe dims true st mfiles layer_name).2.2
      = some (pyStem layer_name ++ ".json") ∧
    dictLookup (create_and_assign_metadata fe dims true st mfiles layer_name).2.1
        (pyStem layer_name ++ ".json") = some (some zeroDimsDoc) ∧
    dictLookup (create_and_assign_metadata fe dims true st mfiles
        layer_name).1.manifest.layers layer_name
      = some { r with metadata := some (pyStem layer_name ++ ".json") } ∧
    (create_and_assign_metadata fe dims true st mfiles layer_name).1.is_dirty
      = true := by
  have hdoc : create_default_metadata fe dims layer_name = zeroDimsDoc := by
    simp [create_default_metadata, hMissing, zeroDimsDoc]
  refine ⟨rfl, ?_, ?_, rfl⟩
  · show dictLookup (dictSet mfiles (pyStem layer_name ++ ".json")
        (some (create_default_metadata fe dims layer_name)))
        (pyStem layer_name ++ ".json") = some (some zeroDimsDoc)
    rw [hdoc]
    exact dictLookup_dictSet_self mfiles (pyStem layer_name ++ ".json")
      (some zeroDimsDoc)
  · show dictLookup (st.manifest.layers.map (fun p =>
        if p.1 = layer_name then
          (p.1, { p.2 with metadata := some (pyStem layer_name ++ ".json") })
        else p)) layer_name
      = some { r with metadata := some (pyStem layer_name ++ ".json") }
    rw [dictLookup_map_modify_self st.manifest.layers layer_name
      (fun v => { v with metadata := some (pyStem layer_name ++ ".json") }), hLayer]
    rfl

/-- C10 witness: a concrete layer `a.png` with no backing image file — the
default metadata is created with all-zero dimensions and assigned. -/
theorem create_metadata_missing_image_witness :
    (create_and_assign_metadata (fun _ => false) (fun _ => (7, 8)) true
        loadedState [] "a.png").2.2 = some "a.json" ∧
    dictLookup (create_and_assign_metadata (fun _ => false) (fun _ => (7, 8)) true
        loadedState [] "a.png").2.1 "a.json" = some (some zeroDimsDoc) ∧
    dictLookup (create_and_assign_metadata (fun _ => false) (fun _ => (7, 8)) true
        loadedState [] "a.png").1.manifest.layers "a.png"
      = some { metadata := some "a.json" } := by
  have h := create_metadata_missing_image (fun _ => false) (fun _ => (7, 8))
    loadedState [] "a.png" {} rfl (by decide)
  refine ⟨by rw [h.1]; decide, ?_, ?_⟩
  · have h2 := h.2.1
    rw [show pyStem "a.png" ++ ".json" = "a.json" from by decide] at h2
    exact h2
  · have h3 := h.2.2.1
    rw [show pyStem "a.png" ++ ".json" = "a.json" from by decide] at h3
    exact h3

/-- C6 counterexample: the manifest has a record for `a.png` carrying a
description; re-adding `a.png` as a base layer does not merge the partial
base record into it — the description is dropped, unlike the merge the
claim describes. -/
theorem add_layer_file_merge_counterexample :
    add_layer_file describedManifest "a.png" true
        ≠ upsert_layer describedManifest "a.png" base_layer_record ∧
    (dictLookup (add_layer_file describedManifest "a.png" true).layers
        "a.png").bind LayerRecord.description = none ∧
    (dictLookup (upsert_layer describedManifest "a.png"
        base_layer_record).layers "a.png").bind LayerRecord.description
      = some "d" := by
  decide

/-- C6 amended: adding a plain layer creates an empty record if absent and
leaves an existing record unchanged (it coincides with merging an empty
patch); adding a base layer stores exactly
`{"type": "base_layer", "offset": [0, 0]}` under the name — last write wins
and fields not supplied by the add (description, bindings, metadata) are
dropped rather than merged.  Records under other names are untouched. -/
theorem add_layer_file_amended (m : Manifest) (name : String)
    (hnd : (m.layers.map Prod.fst).Nodup) :
    add_layer_file m name false = upsert_layer m name {} ∧
    dictLookup (add_layer_file m name true).layers name = some base_layer_record ∧
    (∀ n, ¬ n = name →
      dictLookup (add_layer_file m name true).layers n = dictLookup m.layers n ∧
      dictLookup (add_layer_file m name false).layers n = dictLookup m.layers n) := by
  refine ⟨?_, ?_, ?_⟩
  · show (⟨dictSetdefault m.layers name {}⟩ : Manifest) = upsert_layer m name {}
    unfold upsert_layer
    rcases hl : dictLookup m.layers name with _ | old
    · have hA : m.layers.any (fun p => p.1 = name) = false :=
        (dictLookup_eq_none_iff _ _).mp hl
      simp [dictSetdefault, hA]
    · have hA := any_of_dictLookup hl
      have hm : mergeRecord old {} = old := rfl
      simp only [dictSetdefault, hA, if_true, hm]
      rw [dictSet_of_lookup_self m.layers name old hnd hl]
  · exact dictLookup_dictSet_self m.layers name base_layer_record
  · intro n hneq
    exact ⟨dictLookup_dictSet_ne m.layers name n base_layer_record hneq,
      dictLookup_dictSetdefault_ne m.layers name n {} hneq⟩

/-- C6 witness: on the concrete one-record manifest, a plain add under a
fresh name coincides with an empty-patch upsert and a base add stores the
base record. -/
theorem add_layer_file_amended_witness :
    add_layer_file describedManifest "b.png" false
      = upsert_layer describedManifest "b.png" {} ∧
    dictLookup (add_layer_file describedManifest "b.png" true).layers "b.png"
      = some base_layer_record :=
  ⟨(add_layer_file_amended describedManifest "b.png" (by decide)).1,
   (add_layer_file_amended describedManifest "b.png" (by decide)).2.1⟩

/-- C5 counterexample: a record with cached original size 1 × 1, updated
from the spinboxes with scale 0.9, stores `scaled_width = int(1 * 0.9) = 0`,
while the claimed `round(1 * 0.9)` is `1` — the code truncates, it does not
round. -/
theorem scaled_dims_round_counterexample :
    (update_metadata_from_spinboxes 0 0 (9 / 10) 1 unitSquareDoc).top_layer.bind
        TopLayer.scaled_width = some 0 ∧
    spec_scaled 1 (9 / 10) = 1 ∧
    (update_metadata_from_spinboxes 0 0 (9 / 10) 1 unitSquareDoc).top_layer.bind
        TopLayer.scaled_width ≠ some (spec_scaled 1 (9 / 10)) := by
  have h0 : (update_metadata_from_spinboxes 0 0 (9 / 10) 1
      unitSquareDoc).top_layer.bind TopLayer.scaled_width = some 0 := by
    simp only [update_metadata_from_spinboxes, unitSquareDoc, Option.getD_some,
      Option.bind_some]
    norm_num [pyInt]
  have h1 : spec_scaled 1 (9 / 10) = 1 := by
    norm_num [spec_scaled, round_eq]
  refine ⟨h0, h1, ?_⟩
  rw [h0, h1]
  decide

/-- C5 amended: whenever `original_width`/`original_height` are present, the
spinbox-driven update and the migration backfill store
`scaled_* = int(original_* * scale)` — Python `int()`, i.e. truncation
toward zero of the product — not `round(original_* * scale)`. -/
theorem scaled_dims_truncated (sx sy : Int) (s op : Rat) (doc : MetaDoc)
    (tl : TopLayer) (w h : Int)
    (hTL : doc.top_layer = some tl) (hW : tl.original_width = some w)
    (hH : tl.original_height = some h) :
    (update_metadata_from_spinboxes sx sy s op doc).top_layer
      = some { tl with
                x := some sx
                y := some sy
                scale := some s
                opacity := some op
                scaled_width := some (pyInt ((w : Rat) * s))
                scaled_height := some (pyInt ((h : Rat) * s)) } ∧
    (∀ (metaMap : List (String × String)) (fe : String → Bool)
        (dims : String → Int × Int) (fname lf : String) (data : MetaDoc)
        (tl' : TopLayer),
      data.top_layer = some tl' → tl'.original_width = none →
      dictLookup metaMap fname = some lf → fe lf = true →
      (migrate_file metaMap fe dims fname (some data)).1
        = some { data with top_layer := some { tl' with
            original_width := some (dims lf).1
            original_height := some (dims lf).2
            scaled_width := some (pyInt (((dims lf).1 : Rat) * tl'.scale.getD 1))
            scaled_height := some (pyInt (((dims lf).2 : Rat) * tl'.scale.getD 1)) } }) := by
  constructor
  · simp [update_metadata_from_spinboxes, hTL, hW, hH]
  · intro metaMap fe dims fname lf data tl' hTL' hW' hMap hFe
    simp [migrate_file, hTL', hW', hMap, hFe]

/-- C5 witness: spinbox update on the 1 × 1 record with scale 0.9 stores
`scaled_width = 0`; migrating a legacy record with stored scale 2 for a
100 × 50 image stores `scaled = 200 × 100`. -/
theorem scaled_dims_truncated_witness :
    (update_metadata_from_spinboxes 0 0 (9 / 10) 1 unitSquareDoc).top_layer
      = some { x := some 0
               y := some 0
               scale := some (9 / 10)
               opacity := some 1
               original_width := some 1
               original_height := some 1
               scaled_width := some 0
               scaled_height := some 0 } ∧
    (migrate_file [("m.json", "a.png")] (fun _ => true) (fun _ => (100, 50))
        "m.json" (some legacyDoc)).1
      = some { top_layer := some { x := some 0
                                   y := some 0
                                   scale := some 2
                                   opacity := none
                                   original_width := some 100
                                   original_height := some 50
                                   scaled_width := some 200
                                   scaled_height := some 100 } } := by
  have h := scaled_dims_truncated 0 0 (9 / 10) 1 unitSquareDoc
    { original_width := some 1, original_height := some 1 } 1 1 rfl rfl rfl
  constructor
  · rw [h.1]
    have hp : pyInt (((1 : Int) : Rat) * (9 / 10)) = 0 := by norm_num [pyInt]
    rw [hp]
  · rw [h.2 [("m.json", "a.png")] (fun _ => true) (fun _ => (100, 50))
      "m.json" "a.png" legacyDoc { x := some 0, y := some 0, scale := some 2 }
      rfl rfl (by decide) rfl]
    have h1 : pyInt (((100 : Int) : Rat) * ((2 : Rat))) = 200 := by norm_num [pyInt]
    have h2 : pyInt (((50 : Int) : Rat) * ((2 : Rat))) = 100 := by norm_num [pyInt]
    simp only [Option.getD]
    norm_num [pyInt]

theorem migrate_file_twice (metaMap : List (String × String))
    (fe : String → Bool) (dims : String → Int × Int) (fname : String)
    (c : MetaFile) :
    migrate_file metaMap fe dims fname (migrate_file metaMap fe dims fname c).1
      = ((migrate_file metaMap fe dims fname c).1,
         match (migrate_file metaMap fe dims fname c).2 with
         | .processed => MigOutcome.skipped
         | .skipped => MigOutcome.skipped
         | .errored => MigOutcome.errored) := by
  cases c with
  | none => rfl
  | some data =>
    cases hTL : data.top_layer with
    | none => simp [migrate_file, hTL]
    | some tl =>
      cases hW : tl.original_width with
      | some w => simp [migrate_file, hTL, hW]
      | none =>
        cases hMap : dictLookup metaMap fname with
        | none => simp [migrate_file, hTL, hW, hMap]
        | some lf =>
          cases hFe : fe lf with
          | false => simp [migrate_file, hTL, hW, hMap, hFe]
          | true => simp [migrate_file, hTL, hW, hMap, hFe]

/-- C3: the migration pass is idempotent — running it a second time on the
file set produced by a first run processes zero files: every file the first
run migrated is counted as skipped the second time (so the second run's
skip count is the first run's skips plus its processed files, and the error
count is unchanged). -/
theorem run_migration_script_idempotent (m : Manifest) (fe : String → Bool)
    (dims : String → Int × Int) (files : List (String × MetaFile)) :
    (run_migration_script m fe dims
        (run_migration_script m fe dims files).1).2.processed = 0 ∧
    (run_migration_script m fe dims
        (run_migration_script m fe dims files).1).2.skipped
      = (run_migration_script m fe dims files).2.skipped
        + (run_migration_script m fe dims files).2.processed ∧
    (run_migration_script m fe dims
        (run_migration_script m fe dims files).1).2.errored
      = (run_migration_script m fe dims files).2.errored := by
  unfold run_migration_script
  induction files with
  | nil => simp [run_migration]
  | cons f rest ih =>
    obtain ⟨fname, c⟩ := f
    obtain ⟨ih1, ih2, ih3⟩ := ih
    have htw := migrate_file_twice (metadata_to_layer_map m) fe dims fname c
    rcases ho : (migrate_file (metadata_to_layer_map m) fe dims fname c).2
      with _ | _ | _ <;>
      rw [ho] at htw <;>
      simp only [run_migration, htw, ho] at ih1 ih2 ih3 ⊢ <;>
      omega

/-- C1: with base `B` (bindings `[x, y]`) and overlay `O` (bindings
`[p, q]`) selected and all six backing image files present, the compositor
emits draw operations exactly in the order `[B, O, p, q, x, y]` with
strictly increasing z-values — so every binding of the base layer is drawn
above every binding of the overlay layer, regardless of list order between
the two groups. -/
theorem compose_z_order (m : Manifest) (mfiles : List (String × MetaFile))
    (fileExists : String → Bool) (B O p q x y : String) (rB rO : LayerRecord)
    (hB : dictLookup m.layers B = some rB) (hBb : rB.bindings = some [x, y])
    (hO : dictLookup m.layers O = some rO) (hOb : rO.bindings = some [p, q])
    (hBsel : layerSelected B = true) (hOsel : layerSelected O = true)
    (hfB : fileExists B = true) (hfO : fileExists O = true)
    (hfp : fileExists p = true) (hfq : fileExists q = true)
    (hfx : fileExists x = true) (hfy : fileExists y = true) :
    (update_preview m mfiles fileExists B O).map DrawOp.image
        = [B, O, p, q, x, y] ∧
    (update_preview m mfiles fileExists B O).Chain' (fun a b => a.z < b.z) := by
  constructor
  · simp [update_preview, render_bound_layers_for, render_bound_go,
      hB, hO, hBb, hOb, hBsel, hOsel, hfB, hfO, hfp, hfq, hfx, hfy]
  · simp [update_preview, render_bound_layers_for, render_bound_go,
      hB, hO, hBb, hOb, hBsel, hOsel, hfB, hfO, hfp, hfq, hfx, hfy,
      List.chain'_cons]

/-- C1 witness: on the concrete six-layer manifest with every file present,
the preview draws `[B, O, p, q, x, y]` in order with strictly increasing
z-values. -/
theorem compose_z_order_witness :
    (update_preview previewManifest [] (fun _ => true) "B.png" "O.png").map
        DrawOp.image
      = ["B.png", "O.png", "p.png", "q.png", "x.png", "y.png"] ∧
    (update_preview previewManifest [] (fun _ => true) "B.png"
        "O.png").Chain' (fun a b => a.z < b.z) :=
  compose_z_order previewManifest [] (fun _ => true) "B.png" "O.png"
    "p.png" "q.png" "x.png" "y.png"
    { type_ := some "base_layer", offset := some (0, 0),
      bindings := some ["x.png", "y.png"] }
    { bindings := some ["p.png", "q.png"] }
    (by decide) rfl (by decide) rfl (by decide) (by decide)
    rfl rfl rfl rfl rfl rfl

end ModelEditor
